import Mathlib

/-!
Verification of the csv_file core (src/csv_file/main.py): the condition
parser, the aggregate-spec parser, the row filter and the aggregator.

Python values flowing through the core are modelled by `Value`
(int / float / str); Python floats are modelled as exact rationals.
Python exceptions are modelled by `Except Err`: each `Err` constructor
stands for one exception the core can raise, carrying the data that the
Python message interpolates.

Modelling notes (deliberate simplifications of CPython behaviour that no
claim depends on): `int(...)` / `float(...)` on strings accept ASCII
digits with an optional sign and surrounding whitespace, and `float`
additionally a single decimal point; exponent forms, inf/nan and digit
underscores are not modelled. `str(...)` of a float prints the shortest
plain decimal form (no scientific notation), which agrees with CPython
on every float that the core's own parser can produce.
-/

/-- A Python runtime value as the core sees it: an int, a float
(modelled as an exact rational), or a str. -/
inductive Value where
  | int (n : Int)
  | float (q : ℚ)
  | str (s : String)
deriving DecidableEq

/-- The exceptions the core can raise, one constructor per distinct
raise site / runtime failure. -/
inductive Err where
  | invalidCondition (condition : String)
  | invalidAggregate (aggregate : String)
  | unsupportedFunc (func : String)
  | nonNumericColumn (column : String)
  | keyError (column : String)
  | typeError
  | unpackError
deriving DecidableEq

deriving instance DecidableEq for Except

/-- A row: an ordered mapping from column name to cell value
(Python dict, association-list model; keys are unique in practice). -/
abbrev Row := List (String × Value)

/-- Python `s.split(sep)` for a one-character separator, on the
character list: splits at every occurrence, keeping empty segments. -/
def splitChar (c : Char) : List Char → List (List Char)
  | [] => [[]]
  | x :: xs =>
    if x = c then [] :: splitChar c xs
    else
      match splitChar c xs with
      | [] => [[x]]
      | h :: t => (x :: h) :: t

/-- Strip leading and trailing whitespace, as Python int()/float() do
before parsing a string. -/
def pyStrip (l : List Char) : List Char :=
  ((l.dropWhile Char.isWhitespace).reverse.dropWhile Char.isWhitespace).reverse

/-- The natural number denoted by a list of decimal digits. -/
def digitsToNat (l : List Char) : Nat :=
  l.foldl (fun acc c => acc * 10 + (c.toNat - 48)) 0

/-- Parse a non-empty all-digit string to a Nat; anything else fails. -/
def parseNat? (l : List Char) : Option Nat :=
  if !l.isEmpty && l.all Char.isDigit then some (digitsToNat l) else none

/-- Python `int(s)` on a string: optional sign then decimal digits,
surrounding whitespace allowed; None models ValueError. -/
def pyInt? (s : String) : Option Int :=
  match pyStrip s.data with
  | '+' :: rest => (parseNat? rest).map (fun n => (n : Int))
  | '-' :: rest => (parseNat? rest).map (fun n => -(n : Int))
  | l => (parseNat? l).map (fun n => (n : Int))

/-- The unsigned body of a float literal: digits, or digits '.' digits
with at least one digit in total. -/
def pyFloatBody? (body : List Char) : Option ℚ :=
  match splitChar '.' body with
  | [ip] => if !ip.isEmpty && ip.all Char.isDigit then some ((digitsToNat ip : Nat) : ℚ) else none
  | [ip, fp] =>
    if (ip.all Char.isDigit && fp.all Char.isDigit) && (!ip.isEmpty || !fp.isEmpty) then
      some (mkRat ((digitsToNat ip) * 10 ^ fp.length + digitsToNat fp) (10 ^ fp.length))
    else none
  | _ => none

/-- Python `float(s)` on a string: optional sign then a decimal
literal, surrounding whitespace allowed; None models ValueError. -/
def pyFloat? (s : String) : Option ℚ :=
  match pyStrip s.data with
  | '+' :: rest => pyFloatBody? rest
  | '-' :: rest => (pyFloatBody? rest).map (fun q => -q)
  | l => pyFloatBody? l

/-- Python `int(f)` on a float: truncation toward zero. -/
def pyTrunc (q : ℚ) : Int :=
  q.num.tdiv (q.den : Int)

/-- Python string comparison: code-point lexicographic order. -/
def lexLt : List Char → List Char → Bool
  | [], [] => false
  | [], _ :: _ => true
  | _ :: _, [] => false
  | a :: as, b :: bs =>
    if a.toNat < b.toNat then true
    else if b.toNat < a.toNat then false
    else lexLt as bs

/-- The value coercion inside parse_where_condition (main.py lines
17-20): `float(value) if "." in value else int(value)`, with a failed
parse leaving the string unchanged (`except ValueError: pass`). -/
def coerceCondValue (s : String) : Value :=
  if '.' ∈ s.data then
    match pyFloat? s with
    | some q => .float q
    | none => .str s
  else
    match pyInt? s with
    | some n => .int n
    | none => .str s

/-- The per-row value coercion inside filter_data (main.py lines
44-48): `float(row_value) if isinstance(row_value, str) and "." in
row_value else int(row_value)`, with ValueError/TypeError swallowed.
A float hits the `int(row_value)` branch and is truncated. -/
def coerceRowValue : Value → Value
  | .str s =>
    if '.' ∈ s.data then
      match pyFloat? s with
      | some q => .float q
      | none => .str s
    else
      match pyInt? s with
      | some n => .int n
      | none => .str s
  | .int n => .int n
  | .float q => .int (pyTrunc q)

/-- The loop body of parse_where_condition (main.py lines 11-21):
try each operator in order; if it occurs and splitting on it yields
exactly two parts, return; otherwise continue with the next operator. -/
def whereLoop (condition : String) : List Char → Except Err (String × String × Value)
  | [] => .error (.invalidCondition condition)
  | op :: rest =>
    if op ∈ condition.data then
      match splitChar op condition.data with
      | [l, r] => .ok (String.mk l, String.mk [op], coerceCondValue (String.mk r))
      | _ => whereLoop condition rest
    else whereLoop condition rest

/-- parse_where_condition (main.py lines 9-22). -/
def parse_where_condition (condition : String) : Except Err (String × String × Value) :=
  whereLoop condition ['>', '<', '=']

/-- parse_aggregate (main.py lines 25-31): require '=' to occur, split
on all occurrences and unpack into exactly two parts (a Python
ValueError if there are more), then check the function name. -/
def parse_aggregate (aggregate : String) : Except Err (String × String) :=
  if '=' ∈ aggregate.data then
    match splitChar '=' aggregate.data with
    | [c, f] =>
      if String.mk f ∈ (["avg", "min", "max"] : List String) then
        .ok (String.mk c, String.mk f)
      else .error (.unsupportedFunc (String.mk f))
    | _ => .error .unpackError
  else .error (.invalidAggregate aggregate)

/-- The smallest k with 10^k divisible by d, if one exists below the
search bound (it does whenever d divides a power of ten). -/
def pow10Exp (d : Nat) : Option Nat :=
  (List.range (d + 1)).find? (fun k => 10 ^ k % d == 0)

/-- Zero-pad the decimal rendering of a fractional part to k digits. -/
def padFrac (fp : Nat) (k : Nat) : String :=
  String.mk (List.replicate (k - (toString fp).length) '0') ++ toString fp

/-- Python `str(f)` for a float that is an exact decimal: sign,
integer part, '.', fraction with trailing zeros stripped (at least one
digit kept, so whole floats print as "4.0"). -/
def floatRepr (q : ℚ) : String :=
  let sign := if q < 0 then "-" else ""
  let n : Nat := q.num.natAbs
  match pow10Exp q.den with
  | some 0 => sign ++ toString n ++ ".0"
  | some k => sign ++ toString (n * 10 ^ k / q.den / 10 ^ k) ++ "." ++
      padFrac (n * 10 ^ k / q.den % 10 ^ k) k
  | none => sign ++ toString n ++ "/" ++ toString q.den

/-- Python `str(v)` of a coerced cell value. -/
def pyStr : Value → String
  | .str s => s
  | .int n => toString n
  | .float q => floatRepr q

/-- Python `row_value > value`: exact numeric comparison between
numbers, code-point lexicographic between strings, TypeError between a
string and a number. -/
def pyGt : Value → Value → Except Err Bool
  | .int a, .int b => .ok (decide (b < a))
  | .int a, .float b => .ok (decide (b < (a : ℚ)))
  | .float a, .int b => .ok (decide ((b : ℚ) < a))
  | .float a, .float b => .ok (decide (b < a))
  | .str a, .str b => .ok (lexLt b.data a.data)
  | _, _ => .error .typeError

/-- Python `row_value < value`: same typing rules as pyGt. -/
def pyLt : Value → Value → Except Err Bool
  | .int a, .int b => .ok (decide (a < b))
  | .int a, .float b => .ok (decide ((a : ℚ) < b))
  | .float a, .int b => .ok (decide (a < (b : ℚ)))
  | .float a, .float b => .ok (decide (a < b))
  | .str a, .str b => .ok (lexLt a.data b.data)
  | _, _ => .error .typeError

/-- Python `row_value == value`: numbers compare numerically (5 ==
5.0), values of unrelated types compare unequal, never an error. -/
def pyEqNum : Value → Value → Bool
  | .int a, .int b => decide (a = b)
  | .int a, .float b => decide ((a : ℚ) = b)
  | .float a, .int b => decide (a = (b : ℚ))
  | .float a, .float b => decide (a = b)
  | .str a, .str b => a == b
  | _, _ => false

/-- One iteration of the filter loop (main.py lines 43-57) up to the
append: look the column up (KeyError if absent), coerce, and evaluate
the operator; `=` against a string compares str(row_value) to it. -/
def rowTest (column op : String) (value : Value) (row : Row) : Except Err Bool :=
  match row.lookup column with
  | none => .error (.keyError column)
  | some rv0 =>
    let rv := coerceRowValue rv0
    if op = ">" then pyGt rv value
    else if op = "<" then pyLt rv value
    else if op = "=" then
      match value with
      | .str s => .ok (pyStr rv == s)
      | _ => .ok (pyEqNum rv value)
    else .ok false

/-- The filter loop over the row list: rows are tested in order and
kept in order; the first exception aborts the whole call. -/
def filterLoop (column op : String) (value : Value) : List Row → Except Err (List Row)
  | [] => .ok []
  | row :: rest =>
    match rowTest column op value row with
    | .error e => .error e
    | .ok keep =>
      match filterLoop column op value rest with
      | .error e => .error e
      | .ok tail => .ok (if keep then row :: tail else tail)

/-- filter_data (main.py lines 34-59): a falsy condition (None or the
empty string) returns the data unchanged, otherwise parse and filter. -/
def filter_data (data : List Row) (condition : Option String) : Except Err (List Row) :=
  match condition with
  | none => .ok data
  | some c =>
    if c = "" then .ok data
    else
      match parse_where_condition c with
      | .error e => .error e
      | .ok (column, op, value) => filterLoop column op value data

/-- Python `float(v)` on a cell value: ints convert exactly, floats
are themselves, strings go through the float parser. -/
def floatOfValue : Value → Option ℚ
  | .int n => some ((n : Int) : ℚ)
  | .float q => some q
  | .str s => pyFloat? s

/-- The value-collection loop of aggregate_data (main.py lines 70-76):
an absent column is an uncaught KeyError; a value float() rejects
becomes the non-numeric-column error immediately. -/
def aggValues (column : String) : List Row → Except Err (List ℚ)
  | [] => .ok []
  | row :: rest =>
    match row.lookup column with
    | none => .error (.keyError column)
    | some v =>
      match floatOfValue v with
      | none => .error (.nonNumericColumn column)
      | some q =>
        match aggValues column rest with
        | .error e => .error e
        | .ok qs => .ok (q :: qs)

/-- Python `min(values)` for a non-empty list (0 for the empty list,
which the code never reaches). -/
def listMin : List ℚ → ℚ
  | [] => 0
  | x :: xs => xs.foldl min x

/-- Python `max(values)` for a non-empty list. -/
def listMax : List ℚ → ℚ
  | [] => 0
  | x :: xs => xs.foldl max x

/-- aggregate_data (main.py lines 62-89): a falsy aggregate returns no
result rows; otherwise parse the spec, force every column value to a
float, return no rows if the value list is empty, else one result row
keyed by the function name. -/
def aggregate_data (data : List Row) (aggregate : Option String) :
    Except Err (List (List (String × ℚ))) :=
  match aggregate with
  | none => .ok []
  | some a =>
    if a = "" then .ok []
    else
      match parse_aggregate a with
      | .error e => .error e
      | .ok (column, func) =>
        match aggValues column data with
        | .error e => .error e
        | .ok values =>
          if values = [] then .ok []
          else
            .ok [if func = "avg" then [("avg", values.sum / (values.length : ℚ))]
                 else if func = "min" then [("min", listMin values)]
                 else if func = "max" then [("max", listMax values)]
                 else []]

example : parse_where_condition "rating>4.5" = .ok ("rating", ">", Value.float (mkRat 9 2)) := by
  decide

example : parse_where_condition "price<1000" = .ok ("price", "<", Value.int 1000) := by
  decide

example : parse_where_condition "brand=apple" = .ok ("brand", "=", Value.str "apple") := by
  decide

example : parse_where_condition "invalid_condition" =
    .error (.invalidCondition "invalid_condition") := by decide

example : parse_where_condition "x>y>z=w" = .ok ("x>y>z", "=", Value.str "w") := by
  decide

example : parse_aggregate "rating=avg" = .ok ("rating", "avg") := by decide

example : parse_aggregate "rating=unknown" = .error (.unsupportedFunc "unknown") := by decide

example : coerceCondValue "1.2.3" = Value.str "1.2.3" := by decide

example : filter_data [[("a", Value.str "x")]] (some "a>1") = .error .typeError := by decide

example :
    filter_data
      [[("rating", Value.str "4.9")], [("rating", Value.str "4.8")], [("rating", Value.str "4.6")]]
      (some "rating>4.7") =
    .ok [[("rating", Value.str "4.9")], [("rating", Value.str "4.8")]] := by decide

example :
    aggregate_data
      [[("rating", Value.str "4.9")], [("rating", Value.str "4.8")], [("rating", Value.str "4.6")]]
      (some "rating=avg") = .ok [[("avg", mkRat 143 30)]] := by
  show Except.ok [[("avg", ([mkRat 49 10, mkRat 48 10, mkRat 46 10].sum / ((3 : Nat) : ℚ)))]] =
    Except.ok [[("avg", mkRat 143 30)]]
  norm_num [List.sum_cons, Rat.mkRat_eq_div]

example :
    aggregate_data
      [[("price", Value.str "999")], [("price", Value.str "1199")], [("price", Value.str "199")]]
      (some "price=max") = .ok [[("max", 1199)]] := by decide

example : aggregate_data ([] : List Row) (some "bad") = .error (.invalidAggregate "bad") := by
  decide

example : pyStr (Value.float (mkRat 9 2)) = "4.5" := by decide

example : pyStr (Value.float 4) = "4.0" := by decide

example : pyStr (Value.float (mkRat (-9) 2)) = "-4.5" := by decide

example : coerceRowValue (Value.float (mkRat 9 2)) = Value.int 4 := by decide

example : coerceRowValue (Value.float (mkRat (-9) 2)) = Value.int (-4) := by decide

/-! ## Lemmas about splitting -/

theorem splitChar_ne_nil (c : Char) (l : List Char) : splitChar c l ≠ [] := by
  induction l with
  | nil => simp [splitChar]
  | cons x xs ih =>
    by_cases h : x = c
    · simp [splitChar, h]
    · cases hr : splitChar c xs with
      | nil => exact absurd hr ih
      | cons hh tt => simp [splitChar, h, hr]

theorem splitChar_length (c : Char) (l : List Char) :
    (splitChar c l).length = l.count c + 1 := by
  induction l with
  | nil => simp [splitChar]
  | cons x xs ih =>
    by_cases h : x = c
    · subst h
      rw [List.count_cons_self]
      simp [splitChar, ih]
    · have hne : c ≠ x := fun hcx => h hcx.symm
      rw [List.count_cons_of_ne hne]
      cases hr : splitChar c xs with
      | nil => exact absurd hr (splitChar_ne_nil c xs)
      | cons hh tt =>
        rw [hr] at ih
        simp only [splitChar, if_neg h, hr, List.length_cons]
        simp only [List.length_cons] at ih
        omega

theorem splitChar_of_not_mem (c : Char) (l : List Char) (h : c ∉ l) :
    splitChar c l = [l] := by
  induction l with
  | nil => rfl
  | cons x xs ih =>
    have hx : ¬ x = c := by
      intro hxc
      exact h (hxc ▸ List.mem_cons_self x xs)
    have ihh := ih (fun hm => h (List.mem_cons_of_mem _ hm))
    simp [splitChar, hx, ihh]

theorem splitChar_pair (c : Char) (l1 l2 : List Char) (h1 : c ∉ l1) (h2 : c ∉ l2) :
    splitChar c (l1 ++ c :: l2) = [l1, l2] := by
  induction l1 with
  | nil => simp [splitChar, splitChar_of_not_mem c l2 h2]
  | cons x xs ih =>
    have hx : ¬ x = c := by
      intro hxc
      exact h1 (hxc ▸ List.mem_cons_self x xs)
    have ihh := ih (fun hm => h1 (List.mem_cons_of_mem _ hm))
    simp [splitChar, hx, ihh]

theorem count_eq_one_decomp (c : Char) (l : List Char) (h : l.count c = 1) :
    ∃ l1 l2, l = l1 ++ c :: l2 ∧ c ∉ l1 ∧ c ∉ l2 := by
  induction l with
  | nil => simp at h
  | cons x xs ih =>
    by_cases hx : x = c
    · subst hx
      have hz : xs.count x = 0 := by
        simp [List.count_cons] at h
        exact h
      exact ⟨[], xs, rfl, by simp, by rw [← List.count_eq_zero]; exact hz⟩
    · have hcx : ¬ c = x := fun hcx => hx hcx.symm
      have hxs : xs.count c = 1 := by
        simpa [List.count_cons, hcx] using h
      obtain ⟨l1, l2, hdec, hm1, hm2⟩ := ih hxs
      exact ⟨x :: l1, l2, by rw [hdec]; simp, by simp [hm1, hcx], hm2⟩

/-! ## Lemmas about the condition-parser loop -/

theorem whereLoop_skip (condition : String) (op : Char) (rest : List Char)
    (h : condition.data.count op ≠ 1) :
    whereLoop condition (op :: rest) = whereLoop condition rest := by
  by_cases hin : op ∈ condition.data
  · have hpos : 0 < condition.data.count op := List.count_pos_iff.mpr hin
    have hlen := splitChar_length op condition.data
    rcases hs : splitChar op condition.data with _ | ⟨a, _ | ⟨b, _ | ⟨d, t⟩⟩⟩
    · exact absurd hs (splitChar_ne_nil op condition.data)
    · rw [hs] at hlen
      simp at hlen
      omega
    · rw [hs] at hlen
      simp at hlen
      omega
    · simp [whereLoop, hin, hs]
  · simp [whereLoop, hin]

theorem whereLoop_hit (condition : String) (op : Char) (rest : List Char) (l r : List Char)
    (hdec : condition.data = l ++ op :: r) (hl : op ∉ l) (hr : op ∉ r) :
    whereLoop condition (op :: rest) =
      .ok (String.mk l, String.mk [op], coerceCondValue (String.mk r)) := by
  have hin : op ∈ condition.data := by
    rw [hdec]
    exact List.mem_append_right _ (List.mem_cons_self op r)
  have hs : splitChar op condition.data = [l, r] := by
    rw [hdec]
    exact splitChar_pair op l r hl hr
  simp [whereLoop, hin, hs]

theorem whereLoop_error_iff (condition : String) (ops : List Char) :
    whereLoop condition ops = .error (.invalidCondition condition) ↔
      ∀ c ∈ ops, condition.data.count c ≠ 1 := by
  induction ops with
  | nil => simp [whereLoop]
  | cons op rest ih =>
    by_cases h : condition.data.count op = 1
    · obtain ⟨l, r, hdec, hl, hr⟩ := count_eq_one_decomp op condition.data h
      rw [whereLoop_hit condition op rest l r hdec hl hr]
      simp [h]
    · rw [whereLoop_skip condition op rest h, ih]
      simp [h]

/-! ## C1: when parse_where_condition raises the format error -/

/-- C1 (amended): parse_where_condition raises the format error naming
the expression exactly when no operator among '>', '<', '=' occurs
exactly once in the condition string (an operator that occurs several
times makes the loop move on to the next operator rather than fail). -/
theorem C1_amended (condition : String) :
    parse_where_condition condition = .error (.invalidCondition condition) ↔
      ∀ c ∈ (['>', '<', '='] : List Char), condition.data.count c ≠ 1 :=
  whereLoop_error_iff condition ['>', '<', '=']

/-- C1 witness: a string with no operator at all raises the format error. -/
theorem C1_witness :
    parse_where_condition "invalid_condition" =
      .error (.invalidCondition "invalid_condition") :=
  (C1_amended "invalid_condition").mpr (by decide)

/-- C1 counterexample: in "x>y>z=w" the first operator in priority
order that occurs is '>' and it occurs twice, so the claim demands a
format error; the code instead moves on and parses on '='. -/
theorem C1_counterexample :
    parse_where_condition "x>y>z=w" = .ok ("x>y>z", "=", Value.str "w") ∧
      "x>y>z=w".data.count '>' = 2 := by decide

/-! ## C7: which operator parse_where_condition splits on -/

/-- C7 (amended): the operator used is the first one in the priority
order '>', '<', '=' that occurs exactly once in the string; the column
is the untrimmed left segment and the value segment is coerced by the
dot-presence rule. -/
theorem C7_amended (condition : String) (op : Char) (l r : List Char)
    (hop : op ∈ (['>', '<', '='] : List Char))
    (hprev : ∀ c ∈ (['>', '<', '='] : List Char).takeWhile (fun d => d != op),
      condition.data.count c ≠ 1)
    (hdec : condition.data = l ++ op :: r) (hl : op ∉ l) (hr : op ∉ r) :
    parse_where_condition condition =
      .ok (String.mk l, String.mk [op], coerceCondValue (String.mk r)) := by
  unfold parse_where_condition
  rcases List.mem_cons.mp hop with h1 | hop
  · subst h1
    exact whereLoop_hit condition '>' ['<', '='] l r hdec hl hr
  rcases List.mem_cons.mp hop with h2 | hop
  · subst h2
    rw [whereLoop_skip condition '>' ['<', '='] (hprev '>' (by decide))]
    exact whereLoop_hit condition '<' ['='] l r hdec hl hr
  rcases List.mem_cons.mp hop with h3 | hop
  · subst h3
    rw [whereLoop_skip condition '>' ['<', '='] (hprev '>' (by decide))]
    rw [whereLoop_skip condition '<' ['='] (hprev '<' (by decide))]
    exact whereLoop_hit condition '=' [] l r hdec hl hr
  · exact absurd hop (by simp)

/-- C7 witness: "rating>4.5" splits on '>' into the column "rating"
and the float value 4.5. -/
theorem C7_witness :
    parse_where_condition "rating>4.5" =
      .ok ("rating", ">", Value.float (mkRat 9 2)) := by
  have h := C7_amended "rating>4.5" '>' "rating".data "4.5".data
    (by decide) (by decide) (by decide) (by decide) (by decide)
  exact h.trans (by decide)

/-- C7 counterexample: in "a>>b=c" the first operator in priority
order that occurs is '>', but the code parses on '=' because '>'
occurs twice; the claim says '>' would be used. -/
theorem C7_counterexample :
    parse_where_condition "a>>b=c" = .ok ("a>>b", "=", Value.str "c") ∧
      "a>>b=c".data.count '>' = 2 ∧ "a>>b=c".data.count '=' = 1 := by decide

/-! ## C2: the per-row value coercion -/

/-- C2 (amended): the row-value coercion never raises; a string with a
dot gets the float parse and a string without one the int parse, a
failed parse leaving the string unchanged; an int input is returned
unchanged, but a float input is truncated toward zero to an int (not
returned unchanged as the claim states). -/
theorem C2_amended :
    (∀ s : String, '.' ∈ s.data → pyFloat? s = none → coerceRowValue (.str s) = .str s)
    ∧ (∀ (s : String) (q : ℚ), '.' ∈ s.data → pyFloat? s = some q →
        coerceRowValue (.str s) = .float q)
    ∧ (∀ s : String, '.' ∉ s.data → pyInt? s = none → coerceRowValue (.str s) = .str s)
    ∧ (∀ (s : String) (n : Int), '.' ∉ s.data → pyInt? s = some n →
        coerceRowValue (.str s) = .int n)
    ∧ coerceRowValue (.str "1.2.3") = .str "1.2.3"
    ∧ (∀ n : Int, coerceRowValue (.int n) = .int n)
    ∧ (∀ q : ℚ, coerceRowValue (.float q) = .int (pyTrunc q)) := by
  refine ⟨?_, ?_, ?_, ?_, by decide, fun n => rfl, fun q => rfl⟩
  · intro s hdot hnone
    simp [coerceRowValue, hdot, hnone]
  · intro s q hdot hsome
    simp [coerceRowValue, hdot, hsome]
  · intro s hdot hnone
    simp [coerceRowValue, hdot, hnone]
  · intro s n hdot hsome
    simp [coerceRowValue, hdot, hsome]

/-- C2 witness: a dotless numeric string is coerced with the int
parse. -/
theorem C2_witness : coerceRowValue (Value.str "12") = Value.int 12 :=
  C2_amended.2.2.2.1 "12" 12 (by decide) (by decide)

/-- C2 counterexample: a float input is not returned unchanged: 4.5 is
truncated to the int 4 by the bare int() branch. -/
theorem C2_counterexample :
    coerceRowValue (Value.float (mkRat 9 2)) = Value.int 4 ∧
      decide (Value.int 4 = Value.float (mkRat 9 2)) = false := by decide

/-! ## C10: the ordered comparison is partial across types -/

/-- C10: comparing a string cell against a numeric condition value with
an ordered operator makes filter_data fail with a type error, an error
distinct from every error kind the spec enumerates. -/
theorem C10 :
    filter_data [[("a", Value.str "apple")]] (some "a>1") = .error Err.typeError ∧
      decide (Err.typeError = Err.keyError "a") = false ∧
      decide (Err.typeError = Err.invalidCondition "a>1") = false ∧
      decide (Err.typeError = Err.invalidAggregate "a>1") = false ∧
      decide (Err.typeError = Err.unsupportedFunc "avg") = false ∧
      decide (Err.typeError = Err.nonNumericColumn "a") = false := by decide

/-! ## Lemmas about the filter loop -/

theorem filterLoop_eq_filter (column op : String) (value : Value) (data : List Row)
    (hok : ∀ row ∈ data, ∃ b, rowTest column op value row = .ok b) :
    filterLoop column op value data =
      .ok (data.filter (fun row => decide (rowTest column op value row = .ok true))) := by
  induction data with
  | nil => rfl
  | cons row rest ih =>
    obtain ⟨b, hb⟩ := hok row (List.mem_cons_self row rest)
    have ihh := ih (fun r hr => hok r (List.mem_cons_of_mem _ hr))
    cases b with
    | true => simp [filterLoop, hb, ihh, List.filter_cons]
    | false => simp [filterLoop, hb, ihh, List.filter_cons]

theorem filterLoop_idem (column op : String) (value : Value) (data l : List Row)
    (h : filterLoop column op value data = .ok l) :
    filterLoop column op value l = .ok l := by
  induction data generalizing l with
  | nil =>
    simp only [filterLoop] at h
    cases h
    rfl
  | cons row rest ih =>
    simp only [filterLoop] at h
    cases hb : rowTest column op value row with
    | error e => rw [hb] at h; cases h
    | ok b =>
      rw [hb] at h
      cases hrest : filterLoop column op value rest with
      | error e => rw [hrest] at h; cases h
      | ok t =>
        rw [hrest] at h
        cases h
        have iht := ih t hrest
        cases b with
        | false => exact iht
        | true => simp [filterLoop, hb, iht]

theorem filterLoop_error_of_bad (column op : String) (value : Value)
    (pre post : List Row) (badRow : Row)
    (hbad : badRow.lookup column = none)
    (hpre : ∀ row ∈ pre, ∃ b, rowTest column op value row = .ok b) :
    filterLoop column op value (pre ++ badRow :: post) = .error (.keyError column) := by
  induction pre with
  | nil => simp [filterLoop, rowTest, hbad]
  | cons row rest ih =>
    obtain ⟨b, hb⟩ := hpre row (List.mem_cons_self row rest)
    have ihh := ih (fun r hr => hpre r (List.mem_cons_of_mem _ hr))
    simp [filterLoop, hb, ihh]

theorem filterLoop_error_exists (column op : String) (value : Value) (data : List Row)
    (hbad : ∃ row ∈ data, row.lookup column = none) :
    ∃ e, filterLoop column op value data = .error e := by
  induction data with
  | nil => simp at hbad
  | cons row rest ih =>
    by_cases hrow : row.lookup column = none
    · exact ⟨.keyError column, by simp [filterLoop, rowTest, hrow]⟩
    · have hrest : ∃ r ∈ rest, r.lookup column = none := by
        obtain ⟨r, hr, hnone⟩ := hbad
        rcases List.mem_cons.mp hr with rfl | hmem
        · exact absurd hnone hrow
        · exact ⟨r, hmem, hnone⟩
      obtain ⟨e, he⟩ := ih hrest
      cases hb : rowTest column op value row with
      | error e2 => exact ⟨e2, by simp [filterLoop, hb]⟩
      | ok b => exact ⟨e, by simp [filterLoop, hb, he]⟩

theorem parse_ok_ne_empty (c column op : String) (value : Value)
    (hparse : parse_where_condition c = .ok (column, op, value)) : c ≠ "" := by
  intro hc
  subst hc
  have : parse_where_condition "" = .error (.invalidCondition "") := by decide
  rw [this] at hparse
  exact Except.noConfusion hparse

/-! ## C3: what a successful filter returns -/

/-- C3 (amended): with no condition the row set is returned unchanged;
with a condition that parses, and provided every row passes its test
without an exception (the column is present and the comparison is
between compatible types), filter_data returns exactly the rows whose
test is true, in input order. -/
theorem C3_amended :
    (∀ data : List Row, filter_data data none = .ok data)
    ∧ (∀ (data : List Row) (c column op : String) (value : Value),
        parse_where_condition c = .ok (column, op, value) →
        (∀ row ∈ data, ∃ b, rowTest column op value row = .ok b) →
        filter_data data (some c) =
          .ok (data.filter (fun row => decide (rowTest column op value row = .ok true)))) := by
  refine ⟨fun data => rfl, ?_⟩
  intro data c column op value hparse hok
  have hc : c ≠ "" := parse_ok_ne_empty c column op value hparse
  simp only [filter_data, if_neg hc, hparse]
  exact filterLoop_eq_filter column op value data hok

/-- C3 witness: filtering the three sample rating rows by
"rating>4.7" keeps exactly the first two, in input order. -/
theorem C3_witness :
    filter_data
      [[("rating", Value.str "4.9")], [("rating", Value.str "4.8")], [("rating", Value.str "4.6")]]
      (some "rating>4.7") =
      .ok [[("rating", Value.str "4.9")], [("rating", Value.str "4.8")]] := by
  have h := C3_amended.2
    [[("rating", Value.str "4.9")], [("rating", Value.str "4.8")], [("rating", Value.str "4.6")]]
    "rating>4.7" "rating" ">" (Value.float (mkRat 47 10)) (by decide)
    (by
      intro row hrow
      simp only [List.mem_cons, List.not_mem_nil, or_false] at hrow
      rcases hrow with rfl | rfl | rfl
      · exact ⟨true, by decide⟩
      · exact ⟨true, by decide⟩
      · exact ⟨false, by decide⟩)
  exact h.trans (by decide)

/-- C3 counterexample: every row contains column "a", yet filter_data
does not return a row set at all: the comparison of the string cell
"x" with the int 1 raises a type error. -/
theorem C3_counterexample :
    filter_data [[("a", Value.str "x")]] (some "a>1") = .error Err.typeError ∧
      ([("a", Value.str "x")] : Row).lookup "a" = some (Value.str "x") := by decide

/-! ## C8: a row without the filter column -/

/-- C8 (amended): if some row lacks the condition's column, filter_data
fails with an uncaught exception rather than skipping the row; when
every row before the first such row passes its test, the exception is
the key-lookup error naming the column (an earlier row can still fail
first with a type error, which the claim as stated overlooks). -/
theorem C8_amended :
    (∀ (data : List Row) (c column op : String) (value : Value),
        parse_where_condition c = .ok (column, op, value) →
        (∃ row ∈ data, row.lookup column = none) →
        ∃ e, filter_data data (some c) = .error e)
    ∧ (∀ (pre post : List Row) (badRow : Row) (c column op : String) (value : Value),
        parse_where_condition c = .ok (column, op, value) →
        badRow.lookup column = none →
        (∀ row ∈ pre, ∃ b, rowTest column op value row = .ok b) →
        filter_data (pre ++ badRow :: post) (some c) = .error (.keyError column)) := by
  constructor
  · intro data c column op value hparse hbad
    have hc : c ≠ "" := parse_ok_ne_empty c column op value hparse
    simp only [filter_data, if_neg hc, hparse]
    exact filterLoop_error_exists column op value data hbad
  · intro pre post badRow c column op value hparse hbadRow hpre
    have hc : c ≠ "" := parse_ok_ne_empty c column op value hparse
    simp only [filter_data, if_neg hc, hparse]
    exact filterLoop_error_of_bad column op value pre post badRow hbadRow hpre

/-- C8 witness: with a well-behaved first row, the row lacking the
column makes filter_data fail with the key-lookup error naming it. -/
theorem C8_witness :
    filter_data [[("a", Value.str "1")], ([] : Row)] (some "a>1") =
      .error (.keyError "a") := by
  have h := C8_amended.2 [[("a", Value.str "1")]] [] ([] : Row) "a>1" "a" ">" (Value.int 1)
    (by decide) (by decide)
    (by
      intro row hrow
      simp only [List.mem_cons, List.not_mem_nil, or_false] at hrow
      subst hrow
      exact ⟨false, by decide⟩)
  exact h

/-- C8 counterexample: the second row lacks column "a", but the first
row's comparison raises a type error first, so the failure is not a
key-lookup error as the claim states. -/
theorem C8_counterexample :
    filter_data [[("a", Value.str "x")], ([] : Row)] (some "a>1") = .error Err.typeError ∧
      decide (Err.typeError = Err.keyError "a") = false ∧
      (([] : Row).lookup "a") = none := by decide

/-! ## C9: filtering is idempotent -/

/-- C9: whenever filter_data succeeds, filtering the result again with
the same condition returns it unchanged. -/
theorem C9 (data : List Row) (condition : Option String) (l : List Row)
    (h : filter_data data condition = .ok l) :
    filter_data l condition = .ok l := by
  cases condition with
  | none =>
    simp only [filter_data] at h
    cases h
    rfl
  | some c =>
    by_cases hc : c = ""
    · subst hc
      simp only [filter_data, if_pos rfl] at h ⊢
      cases h
      rfl
    · simp only [filter_data, if_neg hc] at h ⊢
      cases hparse : parse_where_condition c with
      | error e => rw [hparse] at h; cases h
      | ok triple =>
        rw [hparse] at h
        obtain ⟨column, op, value⟩ := triple
        exact filterLoop_idem column op value data l h

/-- C9 witness: re-filtering the already-filtered sample rows with
"rating>4.7" returns them unchanged. -/
theorem C9_witness :
    filter_data [[("rating", Value.str "4.9")], [("rating", Value.str "4.8")]]
      (some "rating>4.7") =
      .ok [[("rating", Value.str "4.9")], [("rating", Value.str "4.8")]] :=
  C9 [[("rating", Value.str "4.9")], [("rating", Value.str "4.8")], [("rating", Value.str "4.6")]]
    (some "rating>4.7")
    [[("rating", Value.str "4.9")], [("rating", Value.str "4.8")]] (by decide)

/-! ## Lemmas about the aggregation loop -/

theorem aggValues_err (column : String) (data : List Row)
    (hcols : ∀ row ∈ data, (row.lookup column).isSome)
    (hbad : ∃ row ∈ data, ∃ v, row.lookup column = some v ∧ floatOfValue v = none) :
    aggValues column data = .error (.nonNumericColumn column) := by
  induction data with
  | nil => simp at hbad
  | cons row rest ih =>
    have hsome := hcols row (List.mem_cons_self row rest)
    obtain ⟨v, hv⟩ := Option.isSome_iff_exists.mp hsome
    cases hfv : floatOfValue v with
    | none => simp [aggValues, hv, hfv]
    | some q =>
      have hrest : ∃ r ∈ rest, ∃ w, r.lookup column = some w ∧ floatOfValue w = none := by
        obtain ⟨r, hr, w, hw, hwn⟩ := hbad
        rcases List.mem_cons.mp hr with rfl | hmem
        · rw [hv] at hw
          injection hw with hvw
          subst hvw
          rw [hfv] at hwn
          exact Option.noConfusion hwn
        · exact ⟨r, hmem, w, hw, hwn⟩
      have ihh := ih (fun r hr => hcols r (List.mem_cons_of_mem _ hr)) hrest
      simp [aggValues, hv, hfv, ihh]

theorem aggValues_ok (column : String) (data : List Row)
    (hvals : ∀ row ∈ data, ∃ v q, row.lookup column = some v ∧ floatOfValue v = some q) :
    aggValues column data =
      .ok (data.filterMap (fun row => (row.lookup column).bind floatOfValue)) := by
  induction data with
  | nil => rfl
  | cons row rest ih =>
    obtain ⟨v, q, hv, hq⟩ := hvals row (List.mem_cons_self row rest)
    have ihh := ih (fun r hr => hvals r (List.mem_cons_of_mem _ hr))
    simp [aggValues, hv, hq, ihh, List.filterMap_cons]

/-! ## Lemmas about Python min and max of a list -/

theorem foldl_min_mem (x : ℚ) (xs : List ℚ) : xs.foldl min x ∈ x :: xs := by
  induction xs generalizing x with
  | nil => simp
  | cons y ys ih =>
    have h := ih (min x y)
    simp only [List.foldl_cons]
    rcases List.mem_cons.mp h with h1 | h2
    · rw [h1]
      rcases min_choice x y with hm | hm
      · rw [hm]; exact List.mem_cons_self x (y :: ys)
      · rw [hm]; exact List.mem_cons_of_mem _ (List.mem_cons_self y ys)
    · exact List.mem_cons_of_mem _ (List.mem_cons_of_mem _ h2)

theorem foldl_min_le (x : ℚ) (xs : List ℚ) : ∀ y ∈ x :: xs, xs.foldl min x ≤ y := by
  induction xs generalizing x with
  | nil =>
    intro y hy
    simp only [List.mem_cons, List.not_mem_nil, or_false] at hy
    subst hy
    exact le_refl y
  | cons z zs ih =>
    intro y hy
    simp only [List.foldl_cons]
    have ihz := ih (min x z)
    rcases List.mem_cons.mp hy with rfl | hy2
    · exact le_trans (ihz _ (List.mem_cons_self _ zs)) (min_le_left y z)
    rcases List.mem_cons.mp hy2 with rfl | hy3
    · exact le_trans (ihz _ (List.mem_cons_self _ zs)) (min_le_right x y)
    · exact ihz y (List.mem_cons_of_mem _ hy3)

theorem foldl_max_mem (x : ℚ) (xs : List ℚ) : xs.foldl max x ∈ x :: xs := by
  induction xs generalizing x with
  | nil => simp
  | cons y ys ih =>
    have h := ih (max x y)
    simp only [List.foldl_cons]
    rcases List.mem_cons.mp h with h1 | h2
    · rw [h1]
      rcases max_choice x y with hm | hm
      · rw [hm]; exact List.mem_cons_self x (y :: ys)
      · rw [hm]; exact List.mem_cons_of_mem _ (List.mem_cons_self y ys)
    · exact List.mem_cons_of_mem _ (List.mem_cons_of_mem _ h2)

theorem foldl_max_ge (x : ℚ) (xs : List ℚ) : ∀ y ∈ x :: xs, y ≤ xs.foldl max x := by
  induction xs generalizing x with
  | nil =>
    intro y hy
    simp only [List.mem_cons, List.not_mem_nil, or_false] at hy
    subst hy
    exact le_refl y
  | cons z zs ih =>
    intro y hy
    simp only [List.foldl_cons]
    have ihz := ih (max x z)
    rcases List.mem_cons.mp hy with rfl | hy2
    · exact le_trans (le_max_left y z) (ihz _ (List.mem_cons_self _ zs))
    rcases List.mem_cons.mp hy2 with rfl | hy3
    · exact le_trans (le_max_right x y) (ihz _ (List.mem_cons_self _ zs))
    · exact ihz y (List.mem_cons_of_mem _ hy3)

theorem listMin_spec (qs : List ℚ) (h : qs ≠ []) :
    listMin qs ∈ qs ∧ ∀ y ∈ qs, listMin qs ≤ y := by
  cases qs with
  | nil => exact absurd rfl h
  | cons q qt => exact ⟨foldl_min_mem q qt, foldl_min_le q qt⟩

theorem listMax_spec (qs : List ℚ) (h : qs ≠ []) :
    listMax qs ∈ qs ∧ ∀ y ∈ qs, y ≤ listMax qs := by
  cases qs with
  | nil => exact absurd rfl h
  | cons q qt => exact ⟨foldl_max_mem q qt, foldl_max_ge q qt⟩

theorem parse_aggregate_ok_ne_empty (a column func : String)
    (hparse : parse_aggregate a = .ok (column, func)) : a ≠ "" := by
  intro h
  subst h
  have he : parse_aggregate "" = .error (.invalidAggregate "") := by decide
  rw [he] at hparse
  exact Except.noConfusion hparse

/-! ## C4: a value that float() rejects is fatal for the aggregate -/

/-- C4: when the aggregate spec parses and every row has the named
column, one value failing the direct float parse makes aggregate_data
raise the non-numeric-column error naming the column; no partial
result is produced. -/
theorem C4 (data : List Row) (a column func : String)
    (hparse : parse_aggregate a = .ok (column, func))
    (hcols : ∀ row ∈ data, (row.lookup column).isSome)
    (hbad : ∃ row ∈ data, ∃ v, row.lookup column = some v ∧ floatOfValue v = none) :
    aggregate_data data (some a) = .error (.nonNumericColumn column) := by
  have ha : a ≠ "" := parse_aggregate_ok_ne_empty a column func hparse
  simp only [aggregate_data, if_neg ha, hparse]
  rw [aggValues_err column data hcols hbad]

/-- C4 witness: aggregating the brand column, whose values are
non-numeric strings, fails with the non-numeric-column error. -/
theorem C4_witness :
    aggregate_data [[("brand", Value.str "apple")], [("brand", Value.str "samsung")]]
      (some "brand=avg") = .error (.nonNumericColumn "brand") :=
  C4 [[("brand", Value.str "apple")], [("brand", Value.str "samsung")]]
    "brand=avg" "brand" "avg" (by decide) (by decide)
    ⟨[("brand", Value.str "apple")], by decide, Value.str "apple", by decide, by decide⟩

/-! ## C5: what a successful aggregate returns -/

/-- C5 (amended): no aggregate string gives no result rows; an empty
row set with a WELL-FORMED aggregate spec gives no result rows (a
malformed spec still errors, against the claim); otherwise, with every
column value parsing as a float, the result is one row keyed by the
function name holding the arithmetic mean for avg, the minimum for
min, or the maximum for max. -/
theorem C5_amended :
    (∀ data : List Row,
      aggregate_data data none = .ok [] ∧ aggregate_data data (some "") = .ok [])
    ∧ (∀ a column func : String, parse_aggregate a = .ok (column, func) →
        aggregate_data [] (some a) = .ok [])
    ∧ (∀ (data : List Row) (a column func : String), data ≠ [] →
        parse_aggregate a = .ok (column, func) →
        (∀ row ∈ data, ∃ v q, row.lookup column = some v ∧ floatOfValue v = some q) →
        ∃ qs : List ℚ,
          qs = data.filterMap (fun row => (row.lookup column).bind floatOfValue) ∧ qs ≠ [] ∧
          (func = "avg" →
            aggregate_data data (some a) = .ok [[("avg", qs.sum / (qs.length : ℚ))]]) ∧
          (func = "min" → ∃ m, aggregate_data data (some a) = .ok [[("min", m)]] ∧
            m ∈ qs ∧ ∀ y ∈ qs, m ≤ y) ∧
          (func = "max" → ∃ m, aggregate_data data (some a) = .ok [[("max", m)]] ∧
            m ∈ qs ∧ ∀ y ∈ qs, y ≤ m)) := by
  refine ⟨fun data => ⟨rfl, rfl⟩, ?_, ?_⟩
  · intro a column func hparse
    have ha : a ≠ "" := parse_aggregate_ok_ne_empty a column func hparse
    simp [aggregate_data, if_neg ha, hparse, aggValues]
  · intro data a column func hne hparse hvals
    have ha : a ≠ "" := parse_aggregate_ok_ne_empty a column func hparse
    have hagg := aggValues_ok column data hvals
    refine ⟨data.filterMap (fun row => (row.lookup column).bind floatOfValue), rfl, ?_, ?_, ?_, ?_⟩
    case _ =>
      cases data with
      | nil => exact absurd rfl hne
      | cons row rest =>
        obtain ⟨v, q, hv, hq⟩ := hvals row (List.mem_cons_self row rest)
        simp [List.filterMap_cons, hv, hq]
    all_goals intro hf
    case _ =>
      subst hf
      have hqne : data.filterMap (fun row => (row.lookup column).bind floatOfValue) ≠ [] := by
        cases data with
        | nil => exact absurd rfl hne
        | cons row rest =>
          obtain ⟨v, q, hv, hq⟩ := hvals row (List.mem_cons_self row rest)
          simp [List.filterMap_cons, hv, hq]
      simp only [aggregate_data, if_neg ha, hparse, hagg, if_neg hqne]
      simp
    case _ =>
      subst hf
      have hqne : data.filterMap (fun row => (row.lookup column).bind floatOfValue) ≠ [] := by
        cases data with
        | nil => exact absurd rfl hne
        | cons row rest =>
          obtain ⟨v, q, hv, hq⟩ := hvals row (List.mem_cons_self row rest)
          simp [List.filterMap_cons, hv, hq]
      obtain ⟨hmem, hle⟩ := listMin_spec _ hqne
      refine ⟨listMin _, ?_, hmem, hle⟩
      simp only [aggregate_data, if_neg ha, hparse, hagg, if_neg hqne]
      simp
    case _ =>
      subst hf
      have hqne : data.filterMap (fun row => (row.lookup column).bind floatOfValue) ≠ [] := by
        cases data with
        | nil => exact absurd rfl hne
        | cons row rest =>
          obtain ⟨v, q, hv, hq⟩ := hvals row (List.mem_cons_self row rest)
          simp [List.filterMap_cons, hv, hq]
      obtain ⟨hmem, hge⟩ := listMax_spec _ hqne
      refine ⟨listMax _, ?_, hmem, hge⟩
      simp only [aggregate_data, if_neg ha, hparse, hagg, if_neg hqne]
      simp

/-- C5 witness: the sample ratings average to 143/30. -/
theorem C5_witness :
    aggregate_data
      [[("rating", Value.str "4.9")], [("rating", Value.str "4.8")], [("rating", Value.str "4.6")]]
      (some "rating=avg") = .ok [[("avg", mkRat 143 30)]] := by
  obtain ⟨qs, hqs, hqne, havg, hmin, hmax⟩ := C5_amended.2.2
    [[("rating", Value.str "4.9")], [("rating", Value.str "4.8")], [("rating", Value.str "4.6")]]
    "rating=avg" "rating" "avg" (by simp) (by decide)
    (by
      intro row hrow
      simp only [List.mem_cons, List.not_mem_nil, or_false] at hrow
      rcases hrow with rfl | rfl | rfl
      · exact ⟨Value.str "4.9", mkRat 49 10, by decide, by decide⟩
      · exact ⟨Value.str "4.8", mkRat 48 10, by decide, by decide⟩
      · exact ⟨Value.str "4.6", mkRat 46 10, by decide, by decide⟩)
  rw [havg rfl]
  have hq : qs = [mkRat 49 10, mkRat 48 10, mkRat 46 10] := by rw [hqs]; decide
  rw [hq]
  norm_num [List.sum_cons, List.sum_nil, Rat.mkRat_eq_div]

/-- C5 counterexample: with an empty row set and a malformed aggregate
string, aggregate_data raises the format error instead of returning
the empty result set the claim promises. -/
theorem C5_counterexample :
    aggregate_data ([] : List Row) (some "bad") = .error (.invalidAggregate "bad") := by
  decide

/-! ## C6: the aggregate-spec parser -/

/-- C6: parse_aggregate accepts only strings with exactly one '=';
absence of '=' raises the format error naming the expression; with
exactly one '=' the string splits into (column, function) and the
function must be avg, min or max by exact match, otherwise the
unsupported-function error naming the function is raised. -/
theorem C6 (a : String) :
    (a.data.count '=' = 0 → parse_aggregate a = .error (.invalidAggregate a))
    ∧ (∀ c f : List Char, a.data = c ++ '=' :: f → '=' ∉ c → '=' ∉ f →
        ((String.mk f ∈ (["avg", "min", "max"] : List String) →
            parse_aggregate a = .ok (String.mk c, String.mk f))
         ∧ (String.mk f ∉ (["avg", "min", "max"] : List String) →
            parse_aggregate a = .error (.unsupportedFunc (String.mk f)))))
    ∧ (∀ column func : String, parse_aggregate a = .ok (column, func) →
        a.data.count '=' = 1 ∧ func ∈ (["avg", "min", "max"] : List String)) := by
  refine ⟨?_, ?_, ?_⟩
  · intro h0
    have hnotin : '=' ∉ a.data := by
      rw [← List.count_eq_zero]
      exact h0
    simp [parse_aggregate, hnotin]
  · intro c f hdec hc hf
    have hin : '=' ∈ a.data := by
      rw [hdec]
      exact List.mem_append_right _ (List.mem_cons_self _ f)
    have hs : splitChar '=' a.data = [c, f] := by
      rw [hdec]
      exact splitChar_pair '=' c f hc hf
    constructor
    · intro hmem
      simp [parse_aggregate, hin, hs, hmem]
    · intro hmem
      simp [parse_aggregate, hin, hs, hmem]
  · intro column func hok
    by_cases hin : '=' ∈ a.data
    · have hlen := splitChar_length '=' a.data
      rcases hs : splitChar '=' a.data with _ | ⟨x, _ | ⟨y, _ | ⟨z, t⟩⟩⟩
      · exact absurd hs (splitChar_ne_nil '=' a.data)
      · rw [hs] at hlen
        simp only [List.length_cons, List.length_nil] at hlen
        have := List.count_pos_iff.mpr hin
        omega
      · rw [hs] at hlen
        simp only [List.length_cons, List.length_nil] at hlen
        simp only [parse_aggregate, if_pos hin, hs] at hok
        by_cases hmem : String.mk y ∈ (["avg", "min", "max"] : List String)
        · rw [if_pos hmem] at hok
          simp only [Except.ok.injEq, Prod.mk.injEq] at hok
          obtain ⟨hcol, hfunc⟩ := hok
          subst hfunc
          exact ⟨by omega, hmem⟩
        · rw [if_neg hmem] at hok
          exact Except.noConfusion hok
      · simp only [parse_aggregate, if_pos hin, hs] at hok
        exact Except.noConfusion hok
    · simp only [parse_aggregate, if_neg hin] at hok
      exact Except.noConfusion hok

/-- C6 witness: "rating=avg" parses to ("rating","avg") and
"rating=unknown" raises the unsupported-function error. -/
theorem C6_witness :
    parse_aggregate "rating=avg" = .ok ("rating", "avg") ∧
      parse_aggregate "rating=unknown" = .error (.unsupportedFunc "unknown") := by
  constructor
  · have h := ((C6 "rating=avg").2.1 "rating".data "avg".data
      (by decide) (by decide) (by decide)).1 (by decide)
    exact h.trans (by decide)
  · have h := ((C6 "rating=unknown").2.1 "rating".data "unknown".data
      (by decide) (by decide) (by decide)).2 (by decide)
    exact h.trans (by decide)
